import Mathlib

/-
  Shallow embedding of the Disney API smoke-test suite
  (src/disney-api-test.js) and verification of its specification.

  The script issues HTTP GET requests, parses JSON bodies, and runs five
  sequential checks, halting at the first failure.  We embed parsed JSON
  values as an inductive type, an HTTP response as a status plus parsed
  body, and the network as a function from fetch index to fetch result
  (each check performs exactly one fetch, in runner order).  JavaScript
  member-access semantics that the checks rely on (truthiness, property
  access on non-objects, the behaviour of .length on strings and numbers)
  are embedded explicitly and faithfully where the checks exercise them.
-/

namespace DisneyApi

/-- A parsed JSON value, as produced by response.json(). -/
inductive Json where
  | null : Json
  | bool : Bool → Json
  | num : Int → Json
  | str : String → Json
  | arr : List Json → Json
  | obj : List (String × Json) → Json

/-- An HTTP response: status code and parsed JSON body. -/
structure Response where
  status : Nat
  body : Json

/-- The kinds of error a check can propagate: a transport (fetch) failure,
a raw JavaScript TypeError from member access, or an assertion raised
explicitly by the check via new Error(...). -/
inductive JsError where
  | transport : String → JsError
  | typeError : String → JsError
  | assertion : String → JsError
deriving DecidableEq, Repr

/-- The message carried by an error (error.message in the script). -/
def JsError.message : JsError → String
  | .transport m => m
  | .typeError m => m
  | .assertion m => m

/-- What one check produces: the console lines it prints and the error it
rethrows (none on success).  The catch block of every check logs a FAILED
line and rethrows, so a some value here is exactly a propagated error. -/
structure CheckOut where
  logs : List String
  err : Option JsError
deriving DecidableEq, Repr

/-- First-match lookup of a key in the field list of a JSON object. -/
def lookupField : List (String × Json) → String → Option Json
  | [], _ => none
  | (k, v) :: fs, key => if k = key then some v else lookupField fs key

/-- JavaScript property read v[key] for a parsed JSON value, ignoring
built-in members: objects yield the field value (or undefined, embedded as
none, when absent); every other value has no such field. -/
def getField : Json → String → Option Json
  | .obj fs, key => lookupField fs key
  | _, _ => none

/-- JavaScript truthiness of a possibly-undefined value: undefined, null,
false, 0 and the empty string are falsy; everything else is truthy. -/
def jsTruthy : Option Json → Bool
  | none => false
  | some .null => false
  | some (.bool b) => b
  | some (.num n) => n != 0
  | some (.str s) => s ≠ ""
  | some (.arr _) => true
  | some (.obj _) => true

/-- The property name length. -/
def lengthProp : String := "length"

/-- The property name every. -/
def everyProp : String := "every"

/-- The property name some. -/
def someProp : String := "some"

/-- JavaScript member read v.length for a non-null value: arrays and
strings have a length, objects may carry a literal length field, and
numbers and booleans yield undefined. -/
def lengthMember : Json → Option Json
  | .arr xs => some (.num xs.length)
  | .str s => some (.num s.length)
  | .obj fs => lookupField fs lengthProp
  | _ => none

/-- String conversion of a JSON value under JavaScript template-literal
interpolation. -/
def jsValToString : Json → String
  | .null => "null"
  | .bool true => "true"
  | .bool false => "false"
  | .num n => toString n
  | .str s => s
  | .arr xs => String.intercalate "," (xs.attach.map (fun p => jsValToString p.1))
  | .obj _ => "[object Object]"
decreasing_by
  have := List.sizeOf_lt_of_mem p.2
  simp only [Json.arr.sizeOf_spec]
  omega

/-- Template-literal interpolation of a possibly-undefined value. -/
def display : Option Json → String
  | none => "undefined"
  | some v => jsValToString v

/-- The base URL constant API_URL of the script. -/
def API_URL : String := "https://api.disneyapi.dev/characters"

/-- The key data extracted from every response body. -/
def dataKey : String := "data"

/-- The key name read from every character record. -/
def nameKey : String := "name"

/-- The character filtered for by the specific-record check. -/
def mickeyName : String := "Mickey Mouse"

/-- The URL fetched by testSpecificCharacterExists: the template literal
embeds the name, space included, without any escaping. -/
def specificCharacterUrl : String := API_URL ++ "?name=Mickey Mouse"

/-- Test 1 failure-line lead, from console.error("Test 1: FAILED", msg). -/
def pfx1 : String := "Test 1: FAILED "

/-- Test 2 failure-line lead. -/
def pfx2 : String := "Test 2: FAILED "

/-- Test 3 failure-line lead. -/
def pfx3 : String := "Test 3: FAILED "

/-- Test 4 failure-line lead (the script logs a period after FAILED). -/
def pfx4 : String := "Test 4: FAILED. "

/-- Test 5 failure-line lead (the script logs a period after FAILED). -/
def pfx5 : String := "Test 5: FAILED. "

/-- Message of the status assertion, from the template literal. -/
def statusMsg (s : Nat) : String :=
  "Expected status code 200, but got " ++ toString s ++ " ❌"

/-- Message raised when the body has no valid data array. -/
def invalidDataMsg : String :=
  "Response body does not have a valid \x27data\x27 array."

/-- Message raised when the data array is empty. -/
def emptyDataMsg : String := "Data array is empty."

/-- Generic message raised when some character lacks a name. -/
def missingNamesMsg : String :=
  "Some characters are missing a \x27name\x27 property."

/-- Message raised when Mickey Mouse is not found. -/
def notFoundMsg : String := "\x27Mickey Mouse\x27 character not found."

/-- The default page size constant of testPagination. -/
def defaultPageSize : Int := 50

/-- Message of the pagination assertion, from the template literal. -/
def paginationGotMsg (v : Option Json) : String :=
  "Expected " ++ toString defaultPageSize ++ " items per page, but got "
    ++ display v

/-- TypeError message for reading a property of undefined. -/
def undefReadMsg (p : String) : String :=
  "Cannot read properties of undefined (reading \x27" ++ p ++ "\x27)"

/-- TypeError message for reading a property of null. -/
def nullReadMsg (p : String) : String :=
  "Cannot read properties of null (reading \x27" ++ p ++ "\x27)"

/-- TypeError message for calling a non-function member. -/
def notFunMsg (p : String) : String :=
  "data." ++ p ++ " is not a function"

/-- TypeError message raised when destructuring the data property of a
null body, as V8 words it for an intermediate value. -/
def destructureNullDataMsg : String :=
  "Cannot destructure property \x27data\x27 of \x27(intermediate value)\x27 as it is null"

/-- The member read body.data performed by testDataStructure: reading a
property of a null body throws a TypeError before any check logic runs;
any other body yields the field (undefined when absent or when the body
is not an object). -/
def readDataMember (body : Json) : Except String (Option Json) :=
  match body with
  | .null => .error (nullReadMsg dataKey)
  | b => .ok (getField b dataKey)

/-- The destructuring const { data } = body performed by tests 3 to 5: a
null body throws a TypeError before any check logic runs; any other body
binds data to the field (undefined when absent or when the body is not
an object). -/
def destructureData (body : Json) : Except String (Option Json) :=
  match body with
  | .null => .error destructureNullDataMsg
  | b => .ok (getField b dataKey)

/-- Test 1 of the script: fetch the base URL and require status 200,
otherwise raise the expected-versus-actual assertion.  The catch block
logs the FAILED line and rethrows. -/
def testStatusCode (fr : Except String Response) : CheckOut :=
  match fr with
  | .error m => ⟨[pfx1 ++ m], some (.transport m)⟩
  | .ok r =>
    if r.status = 200 then
      ⟨["Test 1: Status code is 200"], none⟩
    else
      ⟨[pfx1 ++ statusMsg r.status], some (.assertion (statusMsg r.status))⟩

/-- Test 2 of the script: read body.data (a raw TypeError when the body
itself is null, thrown before the if condition is evaluated), require it
to be a truthy array (arrays are always truthy), then require it
non-empty; the two interior logs happen in source order. -/
def testDataStructure (fr : Except String Response) : CheckOut :=
  match fr with
  | .error m => ⟨[pfx2 ++ m], some (.transport m)⟩
  | .ok r =>
    match readDataMember r.body with
    | .error m => ⟨[pfx2 ++ m], some (.typeError m)⟩
    | .ok (some (Json.arr xs)) =>
      if xs.length > 0 then
        ⟨["Test 2: Response \x27data\x27 property is an array",
          "Test 2: Data array is not empty"], none⟩
      else
        ⟨["Test 2: Response \x27data\x27 property is an array",
          pfx2 ++ emptyDataMsg], some (.assertion emptyDataMsg)⟩
    | .ok _ => ⟨[pfx2 ++ invalidDataMsg], some (.assertion invalidDataMsg)⟩

/-- Test 3 of the script: destructure data from the body (a raw
TypeError when the body itself is null), then data.every(character =>
character.name).  When data is undefined or null the member read itself
throws a TypeError; when it is any other non-array the call of .every
throws a TypeError; on an array the check asserts every element has a
truthy name. -/
def testCharactersHaveNames (fr : Except String Response) : CheckOut :=
  match fr with
  | .error m => ⟨[pfx3 ++ m], some (.transport m)⟩
  | .ok r =>
    match destructureData r.body with
    | .error m => ⟨[pfx3 ++ m], some (.typeError m)⟩
    | .ok (some (Json.arr xs)) =>
      if xs.all (fun c => jsTruthy (getField c nameKey)) then
        ⟨["Test 3: All characters have a \x27name\x27 property"], none⟩
      else
        ⟨[pfx3 ++ missingNamesMsg], some (.assertion missingNamesMsg)⟩
    | .ok none =>
      ⟨[pfx3 ++ undefReadMsg everyProp], some (.typeError (undefReadMsg everyProp))⟩
    | .ok (some Json.null) =>
      ⟨[pfx3 ++ nullReadMsg everyProp], some (.typeError (nullReadMsg everyProp))⟩
    | .ok (some _) =>
      ⟨[pfx3 ++ notFunMsg everyProp], some (.typeError (notFunMsg everyProp))⟩

/-- Strict equality v === n between a possibly-undefined value and a
number literal: true exactly when the value is that number. -/
def strictEqNum (v : Option Json) (n : Int) : Bool :=
  match v with
  | some (Json.num m) => m == n
  | _ => false

/-- Strict equality character.name === "Mickey Mouse": true exactly when
the member is a string equal to the literal. -/
def isMickey (c : Json) : Bool :=
  match getField c nameKey with
  | some (Json.str s) => s = mickeyName
  | _ => false

/-- Test 4 of the script: fetch with the literal name query, destructure
data from the body (a raw TypeError when the body itself is null), and
require data.some(character => character.name === "Mickey Mouse"). -/
def testSpecificCharacterExists (fr : Except String Response) : CheckOut :=
  match fr with
  | .error m => ⟨[pfx4 ++ m], some (.transport m)⟩
  | .ok r =>
    match destructureData r.body with
    | .error m => ⟨[pfx4 ++ m], some (.typeError m)⟩
    | .ok (some (Json.arr xs)) =>
      if xs.any isMickey then
        ⟨["Test 4: \x27Mickey Mouse\x27 character found."], none⟩
      else
        ⟨[pfx4 ++ notFoundMsg], some (.assertion notFoundMsg)⟩
    | .ok none =>
      ⟨[pfx4 ++ undefReadMsg someProp], some (.typeError (undefReadMsg someProp))⟩
    | .ok (some Json.null) =>
      ⟨[pfx4 ++ nullReadMsg someProp], some (.typeError (nullReadMsg someProp))⟩
    | .ok (some _) =>
      ⟨[pfx4 ++ notFunMsg someProp], some (.typeError (notFunMsg someProp))⟩

/-- Test 5 of the script: destructure data from the body (a raw
TypeError when the body itself is null), read data.length (a TypeError
only when data is undefined or null; strings and objects can carry a
length) and require strict equality with the default page size 50. -/
def testPagination (fr : Except String Response) : CheckOut :=
  match fr with
  | .error m => ⟨[pfx5 ++ m], some (.transport m)⟩
  | .ok r =>
    match destructureData r.body with
    | .error m => ⟨[pfx5 ++ m], some (.typeError m)⟩
    | .ok none =>
      ⟨[pfx5 ++ undefReadMsg lengthProp],
       some (.typeError (undefReadMsg lengthProp))⟩
    | .ok (some Json.null) =>
      ⟨[pfx5 ++ nullReadMsg lengthProp],
       some (.typeError (nullReadMsg lengthProp))⟩
    | .ok (some d) =>
      if strictEqNum (lengthMember d) defaultPageSize then
        ⟨["Test 5: Pagination returns the correct number of items per page ("
            ++ toString defaultPageSize ++ ")."], none⟩
      else
        ⟨[pfx5 ++ paginationGotMsg (lengthMember d)],
         some (.assertion (paginationGotMsg (lengthMember d)))⟩

/-- One check of the suite: the URL it fetches and its body. -/
structure Check where
  url : String
  exec : Except String Response → CheckOut

/-- The five checks, in the exact order runTests awaits them. -/
def checks : List Check :=
  [⟨API_URL, testStatusCode⟩,
   ⟨API_URL, testDataStructure⟩,
   ⟨API_URL, testCharactersHaveNames⟩,
   ⟨specificCharacterUrl, testSpecificCharacterExists⟩,
   ⟨API_URL, testPagination⟩]

/-- Run a list of checks against a mocked network (the n-th fetch issued
receives env n), accumulating logs, counting fetches, and stopping at the
first rethrown error, exactly as the try block of runTests does. -/
def runChecks : List Check → (Nat → Except String Response) → Nat →
    List String × Nat × Option JsError
  | [], _, n => ([], n, none)
  | c :: rest, env, n =>
    match (c.exec (env n)).err with
    | some e => ((c.exec (env n)).logs, n + 1, some e)
    | none =>
      ((c.exec (env n)).logs ++ (runChecks rest env (n + 1)).1,
       (runChecks rest env (n + 1)).2.1,
       (runChecks rest env (n + 1)).2.2)

/-- The observable outcome of one run: all console lines in order, the
number of fetches issued, and whether the catch block of runTests ran. -/
structure RunResult where
  logs : List String
  fetchCount : Nat
  failed : Bool
deriving DecidableEq, Repr

/-- The banner printed before any check. -/
def banner : String := "--- Running Disney API Tests ---"

/-- The overall success line of runTests. -/
def successLine : String := "\nAll tests completed successfully"

/-- The lead of the overall failure line, from
console.error("Tests failed!", error.message) preceded by a newline. -/
def testsFailedLead : String := "\nTests failed! "

/-- The script entry point runTests: print the banner, run the five checks
in order inside one try block, and either print the overall success line
or catch the first propagated error and print the overall failure line. -/
def runTests (env : Nat → Except String Response) : RunResult :=
  match (runChecks checks env 0).2.2 with
  | none =>
    ⟨banner :: (runChecks checks env 0).1 ++ [successLine],
     (runChecks checks env 0).2.1, false⟩
  | some e =>
    ⟨banner :: (runChecks checks env 0).1 ++ [testsFailedLead ++ e.message],
     (runChecks checks env 0).2.1, true⟩

/-! ### String containment machinery -/

/-- Boolean test that pat is an initial segment of s. -/
def listStartsWith : List Char → List Char → Bool
  | [], _ => true
  | _ :: _, [] => false
  | c :: cs, d :: ds => c == d && listStartsWith cs ds

/-- Boolean test that pat occurs contiguously inside s. -/
def listContainsB : List Char → List Char → Bool
  | [], pat => pat.isEmpty
  | c :: rest, pat => listStartsWith pat (c :: rest) || listContainsB rest pat

/-- Boolean test that the pattern occurs as a substring. -/
def strContainsB (s pat : String) : Bool := listContainsB s.data pat.data

theorem listStartsWith_iff (pat s : List Char) :
    listStartsWith pat s = true ↔ ∃ t, s = pat ++ t := by
  induction pat generalizing s with
  | nil => simp [listStartsWith]
  | cons c cs ih =>
    cases s with
    | nil => simp [listStartsWith]
    | cons d ds =>
      simp only [listStartsWith, Bool.and_eq_true, beq_iff_eq, ih,
        List.cons_append, List.cons.injEq]
      constructor
      · rintro ⟨rfl, t, rfl⟩
        exact ⟨t, rfl, rfl⟩
      · rintro ⟨t, rfl, rfl⟩
        exact ⟨rfl, t, rfl⟩

theorem listContainsB_iff (s pat : List Char) :
    listContainsB s pat = true ↔ ∃ a b, s = a ++ pat ++ b := by
  induction s with
  | nil =>
    simp only [listContainsB, List.isEmpty_iff]
    constructor
    · rintro rfl
      exact ⟨[], [], rfl⟩
    · rintro ⟨a, b, h⟩
      rcases List.append_eq_nil.mp h.symm with ⟨h1, h2⟩
      exact (List.append_eq_nil.mp h1).2
  | cons c rest ih =>
    simp only [listContainsB, Bool.or_eq_true, listStartsWith_iff, ih]
    constructor
    · rintro (⟨t, h⟩ | ⟨a, b, h⟩)
      · exact ⟨[], t, by simp [h]⟩
      · exact ⟨c :: a, b, by simp [h]⟩
    · rintro ⟨a, b, h⟩
      cases a with
      | nil =>
        left
        exact ⟨b, by simpa using h⟩
      | cons a0 as =>
        right
        simp only [List.cons_append, List.cons.injEq] at h
        exact ⟨as, b, h.2⟩

theorem string_data_append (s t : String) : (s ++ t).data = s.data ++ t.data :=
  rfl

/-- A string built as a ++ pat ++ b contains pat. -/
theorem strContainsB_parts (s a pat b : String) (h : s = a ++ pat ++ b) :
    strContainsB s pat = true := by
  subst h
  exact (listContainsB_iff _ _).mpr ⟨a.data, b.data, by
    simp [string_data_append]⟩

/-- Containment is preserved by appending on the right. -/
theorem strContainsB_append_right (s t pat : String)
    (h : strContainsB s pat = true) : strContainsB (s ++ t) pat = true := by
  rcases (listContainsB_iff _ _).mp h with ⟨a, b, hab⟩
  exact (listContainsB_iff _ _).mpr ⟨a, b ++ t.data, by
    simp [string_data_append, hab]⟩

/-- Containment is preserved by prepending on the left. -/
theorem strContainsB_append_left (s t pat : String)
    (h : strContainsB t pat = true) : strContainsB (s ++ t) pat = true := by
  rcases (listContainsB_iff _ _).mp h with ⟨a, b, hab⟩
  exact (listContainsB_iff _ _).mpr ⟨s.data ++ a, b, by
    simp [string_data_append, hab]⟩

/-- Every string contains itself. -/
theorem strContainsB_self (s : String) : strContainsB s s = true :=
  (listContainsB_iff _ _).mpr ⟨[], [], by simp⟩

/-- Every list is an initial segment of itself. -/
theorem listStartsWith_self (l : List Char) : listStartsWith l l = true :=
  (listStartsWith_iff _ _).mpr ⟨[], by simp⟩

/-- If p ++ m equals t, then p starts t; contrapositive tool for proving
two strings with different fixed leads unequal whatever their tails. -/
theorem append_ne_of_not_startsWith (p m t : String)
    (h : listStartsWith p.data t.data = false) : p ++ m ≠ t := by
  intro he
  have : listStartsWith p.data t.data = true :=
    (listStartsWith_iff _ _).mpr ⟨m.data, by rw [← he]; rfl⟩
  rw [h] at this
  exact Bool.false_ne_true this

/-! ### Runner unfolding lemmas -/

theorem runChecks_nil (env : Nat → Except String Response) (n : Nat) :
    runChecks [] env n = ([], n, none) := rfl

theorem runChecks_cons_fail (c : Check) (rest : List Check)
    (env : Nat → Except String Response) (n : Nat) (e : JsError)
    (h : (c.exec (env n)).err = some e) :
    runChecks (c :: rest) env n = ((c.exec (env n)).logs, n + 1, some e) := by
  have he : runChecks (c :: rest) env n =
      match (c.exec (env n)).err with
      | some e => ((c.exec (env n)).logs, n + 1, some e)
      | none =>
        ((c.exec (env n)).logs ++ (runChecks rest env (n + 1)).1,
         (runChecks rest env (n + 1)).2.1,
         (runChecks rest env (n + 1)).2.2) := rfl
  rw [he, h]

theorem runChecks_cons_pass (c : Check) (rest : List Check)
    (env : Nat → Except String Response) (n : Nat)
    (h : (c.exec (env n)).err = none) :
    runChecks (c :: rest) env n =
      ((c.exec (env n)).logs ++ (runChecks rest env (n + 1)).1,
       (runChecks rest env (n + 1)).2.1,
       (runChecks rest env (n + 1)).2.2) := by
  have he : runChecks (c :: rest) env n =
      match (c.exec (env n)).err with
      | some e => ((c.exec (env n)).logs, n + 1, some e)
      | none =>
        ((c.exec (env n)).logs ++ (runChecks rest env (n + 1)).1,
         (runChecks rest env (n + 1)).2.1,
         (runChecks rest env (n + 1)).2.2) := rfl
  rw [he, h]

/-- The failure marker appearing in every per-test failure line. -/
def failedMarker : String := "FAILED"

/-- The overall-failure marker of the final console line. -/
def testsFailedMarker : String := "Tests failed!"

/-- The lead shared by every line a check prints. -/
def testLead : String := "Test "

theorem string_ext {s t : String} (h : s.data = t.data) : s = t := by
  cases s
  cases t
  exact congrArg String.mk h

theorem string_append_assoc (a b c : String) : a ++ b ++ c = a ++ (b ++ c) :=
  string_ext (by simp [string_data_append])

/-- A lead of q is a lead of q ++ m. -/
theorem startsWith_of_lead (p q m : String)
    (h : listStartsWith p.data q.data = true) :
    listStartsWith p.data (q ++ m).data = true := by
  rcases (listStartsWith_iff _ _).mp h with ⟨t, ht⟩
  exact (listStartsWith_iff _ _).mpr
    ⟨t ++ m.data, by rw [string_data_append, ht, List.append_assoc]⟩

/-- Strings that disagree on a fixed lead are distinct. -/
theorem ne_of_startsWith (p l t : String)
    (h1 : listStartsWith p.data l.data = true)
    (h2 : listStartsWith p.data t.data = false) : l ≠ t := by
  intro he
  rw [he, h2] at h1
  exact Bool.false_ne_true h1

/-- On a non-null body the member read is just the field lookup. -/
theorem readDataMember_notnull (body : Json) (h : body ≠ Json.null) :
    readDataMember body = Except.ok (getField body dataKey) := by
  cases body
  case null => exact absurd rfl h
  all_goals rfl

/-- On a non-null body the destructuring is just the field lookup. -/
theorem destructureData_notnull (body : Json) (h : body ≠ Json.null) :
    destructureData body = Except.ok (getField body dataKey) := by
  cases body
  case null => exact absurd rfl h
  all_goals rfl

/-- Only non-null (indeed object) bodies have fields. -/
theorem getField_ne_null (body : Json) (k : String) (v : Json)
    (h : getField body k = some v) : body ≠ Json.null := by
  intro hb
  rw [hb] at h
  exact Option.noConfusion h

/-! ### Shape lemmas for the five checks -/

theorem testStatusCode_lines (fr : Except String Response) :
    ∀ l ∈ (testStatusCode fr).logs,
      listStartsWith testLead.data l.data = true := by
  intro l hl
  rcases fr with m | r
  · simp only [testStatusCode, List.mem_singleton] at hl
    subst hl
    exact startsWith_of_lead testLead pfx1 m (by decide)
  · by_cases hs : r.status = 200
    · simp only [testStatusCode, if_pos hs, List.mem_singleton] at hl
      subst hl
      decide
    · simp only [testStatusCode, if_neg hs, List.mem_singleton] at hl
      subst hl
      exact startsWith_of_lead testLead pfx1 (statusMsg r.status) (by decide)

theorem testStatusCode_failLine (fr : Except String Response)
    (h : (testStatusCode fr).err ≠ none) :
    ∃ l ∈ (testStatusCode fr).logs, strContainsB l failedMarker = true := by
  rcases fr with m | r
  · exact ⟨pfx1 ++ m, by simp [testStatusCode],
      strContainsB_append_right pfx1 m failedMarker (by decide)⟩
  · by_cases hs : r.status = 200
    · simp [testStatusCode, hs] at h
    · exact ⟨pfx1 ++ statusMsg r.status, by simp [testStatusCode, hs],
        strContainsB_append_right pfx1 (statusMsg r.status) failedMarker
          (by decide)⟩

theorem testStatusCode_pass (fr : Except String Response)
    (h : (testStatusCode fr).err = none) :
    (testStatusCode fr).logs = ["Test 1: Status code is 200"] := by
  rcases fr with m | r
  · simp [testStatusCode] at h
  · by_cases hs : r.status = 200
    · simp [testStatusCode, hs]
    · simp [testStatusCode, hs] at h

theorem testDataStructure_lines (fr : Except String Response) :
    ∀ l ∈ (testDataStructure fr).logs,
      listStartsWith testLead.data l.data = true := by
  intro l hl
  rcases fr with m | r
  · simp only [testDataStructure, List.mem_singleton] at hl
    subst hl
    exact startsWith_of_lead testLead pfx2 m (by decide)
  · by_cases hb : r.body = Json.null
    · simp only [testDataStructure, hb, readDataMember,
        List.mem_singleton] at hl
      subst hl
      exact startsWith_of_lead testLead pfx2 (nullReadMsg dataKey) (by decide)
    · have hrw := readDataMember_notnull r.body hb
      rcases hd : getField r.body dataKey with _ | d
      · simp only [testDataStructure, hrw, hd, List.mem_singleton] at hl
        subst hl
        exact startsWith_of_lead testLead pfx2 invalidDataMsg (by decide)
      · rcases d with _ | b | n | s | xs | fs
        · simp only [testDataStructure, hrw, hd, List.mem_singleton] at hl
          subst hl
          exact startsWith_of_lead testLead pfx2 invalidDataMsg (by decide)
        · simp only [testDataStructure, hrw, hd, List.mem_singleton] at hl
          subst hl
          exact startsWith_of_lead testLead pfx2 invalidDataMsg (by decide)
        · simp only [testDataStructure, hrw, hd, List.mem_singleton] at hl
          subst hl
          exact startsWith_of_lead testLead pfx2 invalidDataMsg (by decide)
        · simp only [testDataStructure, hrw, hd, List.mem_singleton] at hl
          subst hl
          exact startsWith_of_lead testLead pfx2 invalidDataMsg (by decide)
        · by_cases hx : xs.length > 0
          · simp only [testDataStructure, hrw, hd, if_pos hx, List.mem_cons,
              List.mem_singleton, List.not_mem_nil, or_false] at hl
            rcases hl with rfl | rfl <;> decide
          · simp only [testDataStructure, hrw, hd, if_neg hx, List.mem_cons,
              List.mem_singleton, List.not_mem_nil, or_false] at hl
            rcases hl with rfl | rfl
            · decide
            · exact startsWith_of_lead testLead pfx2 emptyDataMsg (by decide)
        · simp only [testDataStructure, hrw, hd, List.mem_singleton] at hl
          subst hl
          exact startsWith_of_lead testLead pfx2 invalidDataMsg (by decide)

theorem testDataStructure_failLine (fr : Except String Response)
    (h : (testDataStructure fr).err ≠ none) :
    ∃ l ∈ (testDataStructure fr).logs, strContainsB l failedMarker = true := by
  rcases fr with m | r
  · exact ⟨pfx2 ++ m, by simp [testDataStructure],
      strContainsB_append_right pfx2 m failedMarker (by decide)⟩
  · by_cases hb : r.body = Json.null
    · exact ⟨pfx2 ++ nullReadMsg dataKey,
        by simp [testDataStructure, hb, readDataMember],
        strContainsB_append_right pfx2 (nullReadMsg dataKey) failedMarker
          (by decide)⟩
    · have hrw := readDataMember_notnull r.body hb
      rcases hd : getField r.body dataKey with _ | d
      · exact ⟨pfx2 ++ invalidDataMsg, by simp [testDataStructure, hrw, hd],
          strContainsB_append_right pfx2 invalidDataMsg failedMarker
            (by decide)⟩
      · rcases d with _ | b | n | s | xs | fs
        · exact ⟨pfx2 ++ invalidDataMsg, by simp [testDataStructure, hrw, hd],
            strContainsB_append_right pfx2 invalidDataMsg failedMarker
              (by decide)⟩
        · exact ⟨pfx2 ++ invalidDataMsg, by simp [testDataStructure, hrw, hd],
            strContainsB_append_right pfx2 invalidDataMsg failedMarker
              (by decide)⟩
        · exact ⟨pfx2 ++ invalidDataMsg, by simp [testDataStructure, hrw, hd],
            strContainsB_append_right pfx2 invalidDataMsg failedMarker
              (by decide)⟩
        · exact ⟨pfx2 ++ invalidDataMsg, by simp [testDataStructure, hrw, hd],
            strContainsB_append_right pfx2 invalidDataMsg failedMarker
              (by decide)⟩
        · by_cases hx : xs.length > 0
          · simp [testDataStructure, hrw, hd, hx] at h
          · exact ⟨pfx2 ++ emptyDataMsg,
              by simp [testDataStructure, hrw, hd, hx],
              strContainsB_append_right pfx2 emptyDataMsg failedMarker
                (by decide)⟩
        · exact ⟨pfx2 ++ invalidDataMsg, by simp [testDataStructure, hrw, hd],
            strContainsB_append_right pfx2 invalidDataMsg failedMarker
              (by decide)⟩

theorem testDataStructure_pass (fr : Except String Response)
    (h : (testDataStructure fr).err = none) :
    (testDataStructure fr).logs =
      ["Test 2: Response \x27data\x27 property is an array",
       "Test 2: Data array is not empty"] := by
  rcases fr with m | r
  · simp [testDataStructure] at h
  · by_cases hb : r.body = Json.null
    · simp [testDataStructure, hb, readDataMember] at h
    · have hrw := readDataMember_notnull r.body hb
      rcases hd : getField r.body dataKey with _ | d
      · simp [testDataStructure, hrw, hd] at h
      · rcases d with _ | b | n | s | xs | fs
        · simp [testDataStructure, hrw, hd] at h
        · simp [testDataStructure, hrw, hd] at h
        · simp [testDataStructure, hrw, hd] at h
        · simp [testDataStructure, hrw, hd] at h
        · by_cases hx : xs.length > 0
          · simp [testDataStructure, hrw, hd, hx]
          · simp [testDataStructure, hrw, hd, hx] at h
        · simp [testDataStructure, hrw, hd] at h

theorem testCharactersHaveNames_lines (fr : Except String Response) :
    ∀ l ∈ (testCharactersHaveNames fr).logs,
      listStartsWith testLead.data l.data = true := by
  intro l hl
  rcases fr with m | r
  · simp only [testCharactersHaveNames, List.mem_singleton] at hl
    subst hl
    exact startsWith_of_lead testLead pfx3 m (by decide)
  · by_cases hb : r.body = Json.null
    · simp only [testCharactersHaveNames, hb, destructureData,
        List.mem_singleton] at hl
      subst hl
      exact startsWith_of_lead testLead pfx3 destructureNullDataMsg (by decide)
    · have hrw := destructureData_notnull r.body hb
      rcases hd : getField r.body dataKey with _ | d
      · simp only [testCharactersHaveNames, hrw, hd,
          List.mem_singleton] at hl
        subst hl
        exact startsWith_of_lead testLead pfx3 (undefReadMsg everyProp)
          (by decide)
      · rcases d with _ | b | n | s | xs | fs
        · simp only [testCharactersHaveNames, hrw, hd,
            List.mem_singleton] at hl
          subst hl
          exact startsWith_of_lead testLead pfx3 (nullReadMsg everyProp)
            (by decide)
        · simp only [testCharactersHaveNames, hrw, hd,
            List.mem_singleton] at hl
          subst hl
          exact startsWith_of_lead testLead pfx3 (notFunMsg everyProp)
            (by decide)
        · simp only [testCharactersHaveNames, hrw, hd,
            List.mem_singleton] at hl
          subst hl
          exact startsWith_of_lead testLead pfx3 (notFunMsg everyProp)
            (by decide)
        · simp only [testCharactersHaveNames, hrw, hd,
            List.mem_singleton] at hl
          subst hl
          exact startsWith_of_lead testLead pfx3 (notFunMsg everyProp)
            (by decide)
        · by_cases hx : xs.all (fun c => jsTruthy (getField c nameKey)) = true
          · simp only [testCharactersHaveNames, hrw, hd, if_pos hx,
              List.mem_singleton] at hl
            subst hl
            decide
          · simp only [testCharactersHaveNames, hrw, hd, if_neg hx,
              List.mem_singleton] at hl
            subst hl
            exact startsWith_of_lead testLead pfx3 missingNamesMsg (by decide)
        · simp only [testCharactersHaveNames, hrw, hd,
            List.mem_singleton] at hl
          subst hl
          exact startsWith_of_lead testLead pfx3 (notFunMsg everyProp)
            (by decide)

theorem testCharactersHaveNames_failLine (fr : Except String Response)
    (h : (testCharactersHaveNames fr).err ≠ none) :
    ∃ l ∈ (testCharactersHaveNames fr).logs,
      strContainsB l failedMarker = true := by
  rcases fr with m | r
  · exact ⟨pfx3 ++ m, by simp [testCharactersHaveNames],
      strContainsB_append_right pfx3 m failedMarker (by decide)⟩
  · by_cases hb : r.body = Json.null
    · exact ⟨pfx3 ++ destructureNullDataMsg,
        by simp [testCharactersHaveNames, hb, destructureData],
        strContainsB_append_right pfx3 destructureNullDataMsg failedMarker
          (by decide)⟩
    · have hrw := destructureData_notnull r.body hb
      rcases hd : getField r.body dataKey with _ | d
      · exact ⟨pfx3 ++ undefReadMsg everyProp,
          by simp [testCharactersHaveNames, hrw, hd],
          strContainsB_append_right pfx3 (undefReadMsg everyProp) failedMarker
            (by decide)⟩
      · rcases d with _ | b | n | s | xs | fs
        · exact ⟨pfx3 ++ nullReadMsg everyProp,
            by simp [testCharactersHaveNames, hrw, hd],
            strContainsB_append_right pfx3 (nullReadMsg everyProp) failedMarker
              (by decide)⟩
        · exact ⟨pfx3 ++ notFunMsg everyProp,
            by simp [testCharactersHaveNames, hrw, hd],
            strContainsB_append_right pfx3 (notFunMsg everyProp) failedMarker
              (by decide)⟩
        · exact ⟨pfx3 ++ notFunMsg everyProp,
            by simp [testCharactersHaveNames, hrw, hd],
            strContainsB_append_right pfx3 (notFunMsg everyProp) failedMarker
              (by decide)⟩
        · exact ⟨pfx3 ++ notFunMsg everyProp,
            by simp [testCharactersHaveNames, hrw, hd],
            strContainsB_append_right pfx3 (notFunMsg everyProp) failedMarker
              (by decide)⟩
        · by_cases hx : xs.all (fun c => jsTruthy (getField c nameKey)) = true
          · simp [testCharactersHaveNames, hrw, hd, hx] at h
          · exact ⟨pfx3 ++ missingNamesMsg,
              by simp [testCharactersHaveNames, hrw, hd, hx],
              strContainsB_append_right pfx3 missingNamesMsg failedMarker
                (by decide)⟩
        · exact ⟨pfx3 ++ notFunMsg everyProp,
            by simp [testCharactersHaveNames, hrw, hd],
            strContainsB_append_right pfx3 (notFunMsg everyProp) failedMarker
              (by decide)⟩

theorem testCharactersHaveNames_pass (fr : Except String Response)
    (h : (testCharactersHaveNames fr).err = none) :
    (testCharactersHaveNames fr).logs =
      ["Test 3: All characters have a \x27name\x27 property"] := by
  rcases fr with m | r
  · simp [testCharactersHaveNames] at h
  · by_cases hb : r.body = Json.null
    · simp [testCharactersHaveNames, hb, destructureData] at h
    · have hrw := destructureData_notnull r.body hb
      rcases hd : getField r.body dataKey with _ | d
      · simp [testCharactersHaveNames, hrw, hd] at h
      · rcases d with _ | b | n | s | xs | fs
        · simp [testCharactersHaveNames, hrw, hd] at h
        · simp [testCharactersHaveNames, hrw, hd] at h
        · simp [testCharactersHaveNames, hrw, hd] at h
        · simp [testCharactersHaveNames, hrw, hd] at h
        · by_cases hx : xs.all (fun c => jsTruthy (getField c nameKey)) = true
          · simp [testCharactersHaveNames, hrw, hd, hx]
          · simp [testCharactersHaveNames, hrw, hd, hx] at h
        · simp [testCharactersHaveNames, hrw, hd] at h

theorem testSpecificCharacterExists_lines (fr : Except String Response) :
    ∀ l ∈ (testSpecificCharacterExists fr).logs,
      listStartsWith testLead.data l.data = true := by
  intro l hl
  rcases fr with m | r
  · simp only [testSpecificCharacterExists, List.mem_singleton] at hl
    subst hl
    exact startsWith_of_lead testLead pfx4 m (by decide)
  · by_cases hb : r.body = Json.null
    · simp only [testSpecificCharacterExists, hb, destructureData,
        List.mem_singleton] at hl
      subst hl
      exact startsWith_of_lead testLead pfx4 destructureNullDataMsg (by decide)
    · have hrw := destructureData_notnull r.body hb
      rcases hd : getField r.body dataKey with _ | d
      · simp only [testSpecificCharacterExists, hrw, hd,
          List.mem_singleton] at hl
        subst hl
        exact startsWith_of_lead testLead pfx4 (undefReadMsg someProp)
          (by decide)
      · rcases d with _ | b | n | s | xs | fs
        · simp only [testSpecificCharacterExists, hrw, hd,
            List.mem_singleton] at hl
          subst hl
          exact startsWith_of_lead testLead pfx4 (nullReadMsg someProp)
            (by decide)
        · simp only [testSpecificCharacterExists, hrw, hd,
            List.mem_singleton] at hl
          subst hl
          exact startsWith_of_lead testLead pfx4 (notFunMsg someProp)
            (by decide)
        · simp only [testSpecificCharacterExists, hrw, hd,
            List.mem_singleton] at hl
          subst hl
          exact startsWith_of_lead testLead pfx4 (notFunMsg someProp)
            (by decide)
        · simp only [testSpecificCharacterExists, hrw, hd,
            List.mem_singleton] at hl
          subst hl
          exact startsWith_of_lead testLead pfx4 (notFunMsg someProp)
            (by decide)
        · by_cases hx : xs.any isMickey = true
          · simp only [testSpecificCharacterExists, hrw, hd, if_pos hx,
              List.mem_singleton] at hl
            subst hl
            decide
          · simp only [testSpecificCharacterExists, hrw, hd, if_neg hx,
              List.mem_singleton] at hl
            subst hl
            exact startsWith_of_lead testLead pfx4 notFoundMsg (by decide)
        · simp only [testSpecificCharacterExists, hrw, hd,
            List.mem_singleton] at hl
          subst hl
          exact startsWith_of_lead testLead pfx4 (notFunMsg someProp)
            (by decide)

theorem testSpecificCharacterExists_failLine (fr : Except String Response)
    (h : (testSpecificCharacterExists fr).err ≠ none) :
    ∃ l ∈ (testSpecificCharacterExists fr).logs,
      strContainsB l failedMarker = true := by
  rcases fr with m | r
  · exact ⟨pfx4 ++ m, by simp [testSpecificCharacterExists],
      strContainsB_append_right pfx4 m failedMarker (by decide)⟩
  · by_cases hb : r.body = Json.null
    · exact ⟨pfx4 ++ destructureNullDataMsg,
        by simp [testSpecificCharacterExists, hb, destructureData],
        strContainsB_append_right pfx4 destructureNullDataMsg failedMarker
          (by decide)⟩
    · have hrw := destructureData_notnull r.body hb
      rcases hd : getField r.body dataKey with _ | d
      · exact ⟨pfx4 ++ undefReadMsg someProp,
          by simp [testSpecificCharacterExists, hrw, hd],
          strContainsB_append_right pfx4 (undefReadMsg someProp) failedMarker
            (by decide)⟩
      · rcases d with _ | b | n | s | xs | fs
        · exact ⟨pfx4 ++ nullReadMsg someProp,
            by simp [testSpecificCharacterExists, hrw, hd],
            strContainsB_append_right pfx4 (nullReadMsg someProp) failedMarker
              (by decide)⟩
        · exact ⟨pfx4 ++ notFunMsg someProp,
            by simp [testSpecificCharacterExists, hrw, hd],
            strContainsB_append_right pfx4 (notFunMsg someProp) failedMarker
              (by decide)⟩
        · exact ⟨pfx4 ++ notFunMsg someProp,
            by simp [testSpecificCharacterExists, hrw, hd],
            strContainsB_append_right pfx4 (notFunMsg someProp) failedMarker
              (by decide)⟩
        · exact ⟨pfx4 ++ notFunMsg someProp,
            by simp [testSpecificCharacterExists, hrw, hd],
            strContainsB_append_right pfx4 (notFunMsg someProp) failedMarker
              (by decide)⟩
        · by_cases hx : xs.any isMickey = true
          · simp [testSpecificCharacterExists, hrw, hd, hx] at h
          · exact ⟨pfx4 ++ notFoundMsg,
              by simp [testSpecificCharacterExists, hrw, hd, hx],
              strContainsB_append_right pfx4 notFoundMsg failedMarker
                (by decide)⟩
        · exact ⟨pfx4 ++ notFunMsg someProp,
            by simp [testSpecificCharacterExists, hrw, hd],
            strContainsB_append_right pfx4 (notFunMsg someProp) failedMarker
              (by decide)⟩

theorem testSpecificCharacterExists_pass (fr : Except String Response)
    (h : (testSpecificCharacterExists fr).err = none) :
    (testSpecificCharacterExists fr).logs =
      ["Test 4: \x27Mickey Mouse\x27 character found."] := by
  rcases fr with m | r
  · simp [testSpecificCharacterExists] at h
  · by_cases hb : r.body = Json.null
    · simp [testSpecificCharacterExists, hb, destructureData] at h
    · have hrw := destructureData_notnull r.body hb
      rcases hd : getField r.body dataKey with _ | d
      · simp [testSpecificCharacterExists, hrw, hd] at h
      · rcases d with _ | b | n | s | xs | fs
        · simp [testSpecificCharacterExists, hrw, hd] at h
        · simp [testSpecificCharacterExists, hrw, hd] at h
        · simp [testSpecificCharacterExists, hrw, hd] at h
        · simp [testSpecificCharacterExists, hrw, hd] at h
        · by_cases hx : xs.any isMickey = true
          · simp [testSpecificCharacterExists, hrw, hd, hx]
          · simp [testSpecificCharacterExists, hrw, hd, hx] at h
        · simp [testSpecificCharacterExists, hrw, hd] at h

/-- Unfolding of testPagination when data is present and not null: the
length member is read without a TypeError and compared strictly to 50. -/
theorem testPagination_ok_notnull (r : Response) (d : Json)
    (hd : getField r.body dataKey = some d) (hnn : d ≠ Json.null) :
    testPagination (Except.ok r) =
      if strictEqNum (lengthMember d) defaultPageSize then
        ⟨["Test 5: Pagination returns the correct number of items per page ("
            ++ toString defaultPageSize ++ ")."], none⟩
      else
        ⟨[pfx5 ++ paginationGotMsg (lengthMember d)],
         some (.assertion (paginationGotMsg (lengthMember d)))⟩ := by
  have hb : r.body ≠ Json.null := getField_ne_null r.body dataKey d hd
  have hrw := destructureData_notnull r.body hb
  rcases d with _ | b | n | s | xs | fs
  · exact absurd rfl hnn
  all_goals
    simp [testPagination, hrw, hd]

theorem testPagination_lines (fr : Except String Response) :
    ∀ l ∈ (testPagination fr).logs,
      listStartsWith testLead.data l.data = true := by
  intro l hl
  rcases fr with m | r
  · simp only [testPagination, List.mem_singleton] at hl
    subst hl
    exact startsWith_of_lead testLead pfx5 m (by decide)
  · by_cases hb : r.body = Json.null
    · simp only [testPagination, hb, destructureData,
        List.mem_singleton] at hl
      subst hl
      exact startsWith_of_lead testLead pfx5 destructureNullDataMsg (by decide)
    · have hrw := destructureData_notnull r.body hb
      rcases hd : getField r.body dataKey with _ | d
      · simp only [testPagination, hrw, hd, List.mem_singleton] at hl
        subst hl
        exact startsWith_of_lead testLead pfx5 (undefReadMsg lengthProp)
          (by decide)
      · by_cases hnn : d = Json.null
        · subst hnn
          simp only [testPagination, hrw, hd, List.mem_singleton] at hl
          subst hl
          exact startsWith_of_lead testLead pfx5 (nullReadMsg lengthProp)
            (by decide)
        · rw [testPagination_ok_notnull r d hd hnn] at hl
          by_cases hx : strictEqNum (lengthMember d) defaultPageSize = true
          · simp only [if_pos hx, List.mem_singleton] at hl
            subst hl
            decide
          · simp only [if_neg hx, List.mem_singleton] at hl
            subst hl
            exact startsWith_of_lead testLead pfx5
              (paginationGotMsg (lengthMember d)) (by decide)

theorem testPagination_failLine (fr : Except String Response)
    (h : (testPagination fr).err ≠ none) :
    ∃ l ∈ (testPagination fr).logs, strContainsB l failedMarker = true := by
  rcases fr with m | r
  · exact ⟨pfx5 ++ m, by simp [testPagination],
      strContainsB_append_right pfx5 m failedMarker (by decide)⟩
  · by_cases hb : r.body = Json.null
    · exact ⟨pfx5 ++ destructureNullDataMsg,
        by simp [testPagination, hb, destructureData],
        strContainsB_append_right pfx5 destructureNullDataMsg failedMarker
          (by decide)⟩
    · have hrw := destructureData_notnull r.body hb
      rcases hd : getField r.body dataKey with _ | d
      · exact ⟨pfx5 ++ undefReadMsg lengthProp,
          by simp [testPagination, hrw, hd],
          strContainsB_append_right pfx5 (undefReadMsg lengthProp) failedMarker
            (by decide)⟩
      · by_cases hnn : d = Json.null
        · subst hnn
          exact ⟨pfx5 ++ nullReadMsg lengthProp,
            by simp [testPagination, hrw, hd],
            strContainsB_append_right pfx5 (nullReadMsg lengthProp)
              failedMarker (by decide)⟩
        · rw [testPagination_ok_notnull r d hd hnn] at h ⊢
          by_cases hx : strictEqNum (lengthMember d) defaultPageSize = true
          · simp [hx] at h
          · exact ⟨pfx5 ++ paginationGotMsg (lengthMember d), by simp [hx],
              strContainsB_append_right pfx5 (paginationGotMsg (lengthMember d))
                failedMarker (by decide)⟩

theorem testPagination_pass (fr : Except String Response)
    (h : (testPagination fr).err = none) :
    (testPagination fr).logs =
      ["Test 5: Pagination returns the correct number of items per page (50)."]
    := by
  rcases fr with m | r
  · simp [testPagination] at h
  · by_cases hb : r.body = Json.null
    · simp [testPagination, hb, destructureData] at h
    · have hrw := destructureData_notnull r.body hb
      rcases hd : getField r.body dataKey with _ | d
      · simp [testPagination, hrw, hd] at h
      · by_cases hnn : d = Json.null
        · subst hnn
          simp [testPagination, hrw, hd] at h
        · rw [testPagination_ok_notnull r d hd hnn] at h ⊢
          by_cases hx : strictEqNum (lengthMember d) defaultPageSize = true
          · simp only [if_pos hx]
            decide
          · simp [hx] at h

/-- The check the runner performs k-th (0-based). -/
def checkAt (k : Nat) : Check := checks.getD k ⟨API_URL, testStatusCode⟩

/-- The k-th check passes when handed the k-th fetch result. -/
def passesAt (env : Nat → Except String Response) (k : Nat) : Prop :=
  ((checkAt k).exec (env k)).err = none

/-- The k-th check fails when handed the k-th fetch result. -/
def failsAt (env : Nat → Except String Response) (k : Nat) : Prop :=
  ((checkAt k).exec (env k)).err ≠ none

/-! ### Runner-level lemmas -/

theorem runTests_of_none (env : Nat → Except String Response)
    (h : (runChecks checks env 0).2.2 = none) :
    runTests env =
      ⟨banner :: (runChecks checks env 0).1 ++ [successLine],
       (runChecks checks env 0).2.1, false⟩ := by
  unfold runTests
  split
  · rfl
  · rename_i e he
    rw [h] at he
    exact absurd he (by simp)

theorem runTests_of_some (env : Nat → Except String Response) (e : JsError)
    (h : (runChecks checks env 0).2.2 = some e) :
    runTests env =
      ⟨banner :: (runChecks checks env 0).1 ++ [testsFailedLead ++ e.message],
       (runChecks checks env 0).2.1, true⟩ := by
  unfold runTests
  split
  · rename_i he
    rw [h] at he
    exact absurd he (by simp)
  · rename_i e2 he
    rw [h] at he
    cases he
    rfl

theorem runTests_failed_iff (env : Nat → Except String Response) :
    (runTests env).failed = true ↔ (runChecks checks env 0).2.2 ≠ none := by
  rcases h : (runChecks checks env 0).2.2 with _ | e
  · rw [runTests_of_none env h]
    simp
  · rw [runTests_of_some env e h]
    simp

theorem runTests_fetchCount (env : Nat → Except String Response) :
    (runTests env).fetchCount = (runChecks checks env 0).2.1 := by
  rcases h : (runChecks checks env 0).2.2 with _ | e
  · rw [runTests_of_none env h]
  · rw [runTests_of_some env e h]

/-- Every line printed by any check of the suite begins with Test. -/
theorem checks_lines (c : Check) (hc : c ∈ checks)
    (fr : Except String Response) :
    ∀ l ∈ (c.exec fr).logs, listStartsWith testLead.data l.data = true := by
  simp only [checks, List.mem_cons, List.not_mem_nil, or_false] at hc
  rcases hc with rfl | rfl | rfl | rfl | rfl
  · exact testStatusCode_lines fr
  · exact testDataStructure_lines fr
  · exact testCharactersHaveNames_lines fr
  · exact testSpecificCharacterExists_lines fr
  · exact testPagination_lines fr

/-- Every check of the suite prints a FAILED line when it fails. -/
theorem checks_failLine (c : Check) (hc : c ∈ checks)
    (fr : Except String Response) (h : (c.exec fr).err ≠ none) :
    ∃ l ∈ (c.exec fr).logs, strContainsB l failedMarker = true := by
  simp only [checks, List.mem_cons, List.not_mem_nil, or_false] at hc
  rcases hc with rfl | rfl | rfl | rfl | rfl
  · exact testStatusCode_failLine fr h
  · exact testDataStructure_failLine fr h
  · exact testCharactersHaveNames_failLine fr h
  · exact testSpecificCharacterExists_failLine fr h
  · exact testPagination_failLine fr h

/-- All lines accumulated by runChecks over suite checks begin with Test. -/
theorem runChecks_lines (cs : List Check) (hcs : ∀ c ∈ cs, c ∈ checks)
    (env : Nat → Except String Response) (n : Nat) :
    ∀ l ∈ (runChecks cs env n).1, listStartsWith testLead.data l.data = true := by
  induction cs generalizing n with
  | nil => simp [runChecks_nil]
  | cons c rest ih =>
    intro l hl
    have hc : c ∈ checks := hcs c (by simp)
    rcases he : (c.exec (env n)).err with _ | e
    · rw [runChecks_cons_pass c rest env n he] at hl
      simp only [List.mem_append] at hl
      rcases hl with hl | hl
      · exact checks_lines c hc (env n) l hl
      · exact ih (fun x hx => hcs x (by simp [hx])) (n + 1) l hl
    · rw [runChecks_cons_fail c rest env n e he] at hl
      exact checks_lines c hc (env n) l hl

/-- When a run of checks fails, some accumulated line contains FAILED. -/
theorem runChecks_failedLine (cs : List Check) (hcs : ∀ c ∈ cs, c ∈ checks)
    (env : Nat → Except String Response) (n : Nat)
    (h : (runChecks cs env n).2.2 ≠ none) :
    ∃ l ∈ (runChecks cs env n).1, strContainsB l failedMarker = true := by
  induction cs generalizing n with
  | nil => simp [runChecks_nil] at h
  | cons c rest ih =>
    have hc : c ∈ checks := hcs c (by simp)
    rcases he : (c.exec (env n)).err with _ | e
    · rw [runChecks_cons_pass c rest env n he] at h ⊢
      simp only at h
      rcases ih (fun x hx => hcs x (by simp [hx])) (n + 1) h with ⟨l, hl, hcont⟩
      exact ⟨l, by simp [List.mem_append, hl], hcont⟩
    · rw [runChecks_cons_fail c rest env n e he]
      exact checks_failLine c hc (env n) (by simp [he])

/-- The run of checks depends only on the responses it actually fetches. -/
theorem runChecks_congr (cs : List Check)
    (env1 env2 : Nat → Except String Response) (n : Nat)
    (h : ∀ i, i < cs.length → env1 (n + i) = env2 (n + i)) :
    runChecks cs env1 n = runChecks cs env2 n := by
  induction cs generalizing n with
  | nil => rfl
  | cons c rest ih =>
    have h0 : env1 n = env2 n := by
      have := h 0 (by simp)
      simpa using this
    have hrest : runChecks rest env1 (n + 1) = runChecks rest env2 (n + 1) := by
      apply ih
      intro i hi
      have := h (i + 1) (by simpa using Nat.succ_lt_succ hi)
      have harith : n + (i + 1) = n + 1 + i := by omega
      rwa [harith] at this
    rcases he : (c.exec (env2 n)).err with _ | e
    · rw [runChecks_cons_pass c rest env1 n (by rw [h0]; exact he),
        runChecks_cons_pass c rest env2 n he, h0, hrest]
    · rw [runChecks_cons_fail c rest env1 n e (by rw [h0]; exact he),
        runChecks_cons_fail c rest env2 n e he, h0]

/-- When the first k checks pass and the k-th fails, exactly k + 1 fetches
are issued and the error propagates. -/
theorem runChecks_stops (cs : List Check)
    (env : Nat → Except String Response) (n k : Nat) (hk : k < cs.length)
    (hpass : ∀ j, j < k →
      ((cs.getD j ⟨API_URL, testStatusCode⟩).exec (env (n + j))).err = none)
    (hfail : ((cs.getD k ⟨API_URL, testStatusCode⟩).exec (env (n + k))).err
      ≠ none) :
    (runChecks cs env n).2.1 = n + k + 1 ∧
      (runChecks cs env n).2.2 ≠ none := by
  induction cs generalizing n k with
  | nil => simp at hk
  | cons c rest ih =>
    cases k with
    | zero =>
      rcases Option.ne_none_iff_exists.mp
        (by simpa using hfail) with ⟨e, he⟩
      rw [runChecks_cons_fail c rest env n e he.symm]
      simp
    | succ k =>
      have h0 : (c.exec (env n)).err = none := by
        have := hpass 0 (Nat.succ_pos k)
        simpa using this
      rw [runChecks_cons_pass c rest env n h0]
      have hpass2 : ∀ j, j < k →
          ((rest.getD j ⟨API_URL, testStatusCode⟩).exec
            (env (n + 1 + j))).err = none := by
        intro j hj
        have := hpass (j + 1) (Nat.succ_lt_succ hj)
        have harith : n + (j + 1) = n + 1 + j := by omega
        rw [harith] at this
        simpa using this
      have hfail2 :
          ((rest.getD k ⟨API_URL, testStatusCode⟩).exec
            (env (n + 1 + k))).err ≠ none := by
        have harith : n + (k + 1) = n + 1 + k := by omega
        rw [harith] at hfail
        simpa using hfail
      have hk2 : k < rest.length := by simpa using Nat.lt_of_succ_lt_succ hk
      rcases ih (n + 1) k hk2 hpass2 hfail2 with ⟨hc, he⟩
      refine ⟨by rw [hc]; omega, he⟩

/-- Success lines of a fully passing run, in order. -/
def allPassLines : List String :=
  ["Test 1: Status code is 200",
   "Test 2: Response \x27data\x27 property is an array",
   "Test 2: Data array is not empty",
   "Test 3: All characters have a \x27name\x27 property",
   "Test 4: \x27Mickey Mouse\x27 character found.",
   "Test 5: Pagination returns the correct number of items per page (50)."]

/-- A run whose error component is none printed exactly the fixed success
lines of the five checks and issued five fetches. -/
theorem runChecks_success (env : Nat → Except String Response)
    (h : (runChecks checks env 0).2.2 = none) :
    (runChecks checks env 0).1 = allPassLines ∧
      (runChecks checks env 0).2.1 = 5 := by
  simp only [checks] at h ⊢
  rcases h1 : (testStatusCode (env 0)).err with _ | e
  on_goal 2 =>
    rw [runChecks_cons_fail _ _ env 0 e h1] at h
    simp at h
  rw [runChecks_cons_pass _ _ env 0 h1] at h ⊢
  simp only at h
  rcases h2 : (testDataStructure (env 1)).err with _ | e
  on_goal 2 =>
    rw [runChecks_cons_fail _ _ env 1 e h2] at h
    simp at h
  rw [runChecks_cons_pass _ _ env 1 h2] at h ⊢
  simp only at h
  rcases h3 : (testCharactersHaveNames (env 2)).err with _ | e
  on_goal 2 =>
    rw [runChecks_cons_fail _ _ env 2 e h3] at h
    simp at h
  rw [runChecks_cons_pass _ _ env 2 h3] at h ⊢
  simp only at h
  rcases h4 : (testSpecificCharacterExists (env 3)).err with _ | e
  on_goal 2 =>
    rw [runChecks_cons_fail _ _ env 3 e h4] at h
    simp at h
  rw [runChecks_cons_pass _ _ env 3 h4] at h ⊢
  simp only at h
  rcases h5 : (testPagination (env 4)).err with _ | e
  on_goal 2 =>
    rw [runChecks_cons_fail _ _ env 4 e h5] at h
    simp at h
  rw [runChecks_cons_pass _ _ env 4 h5] at h ⊢
  rw [testStatusCode_pass _ h1, testDataStructure_pass _ h2,
    testCharactersHaveNames_pass _ h3, testSpecificCharacterExists_pass _ h4,
    testPagination_pass _ h5]
  exact ⟨rfl, rfl⟩

/-- The marker that the status-failure message must contain. -/
def expectedStatusMarker : String := "Expected status code 200"

theorem cons_append_getLast (a x : String) (A : List String) :
    (a :: (A ++ [x])).getLast? = some x := by
  rw [← List.cons_append, List.getLast?_append_cons]
  rfl

/-! ### Claim theorems -/

/-- C1: the runner invokes the five checks in the fixed order Status Code,
Data Shape, Name Presence, Specific Record, Pagination, and as soon as the
k-th check fails (all earlier ones passing) only k + 1 fetches have been
issued, so no later check is ever invoked; in particular a Check 1 failure
leaves the fetch count at 1. -/
theorem c1_runner_halts_on_first_failure
    (env : Nat → Except String Response) (k : Nat) (hk : k < 5)
    (hpass : ∀ j, j < k → passesAt env j) (hfail : failsAt env k) :
    checks.map Check.exec =
      [testStatusCode, testDataStructure, testCharactersHaveNames,
       testSpecificCharacterExists, testPagination]
    ∧ (runTests env).fetchCount = k + 1
    ∧ (runTests env).failed = true := by
  have hk5 : k < checks.length := hk
  have hpass2 : ∀ j, j < k →
      ((checks.getD j ⟨API_URL, testStatusCode⟩).exec (env (0 + j))).err
        = none := by
    intro j hj
    have := hpass j hj
    rw [Nat.zero_add]
    exact this
  have hfail2 :
      ((checks.getD k ⟨API_URL, testStatusCode⟩).exec (env (0 + k))).err
        ≠ none := by
    rw [Nat.zero_add]
    exact hfail
  rcases runChecks_stops checks env 0 k hk5 hpass2 hfail2 with ⟨hc, he⟩
  refine ⟨rfl, ?_, (runTests_failed_iff env).mpr he⟩
  rw [runTests_fetchCount env, hc]
  omega

/-- C1 witness: with every fetch returning status 404, Check 1 fails and
the run stops after a single fetch. -/
theorem c1_witness :
    (runTests (fun _ => Except.ok ⟨404, Json.null⟩)).fetchCount = 1
    ∧ (runTests (fun _ => Except.ok ⟨404, Json.null⟩)).failed = true := by
  have h := c1_runner_halts_on_first_failure
    (fun _ => Except.ok ⟨404, Json.null⟩) 0 (by omega)
    (fun j hj => absurd hj (by omega))
    (by simp [failsAt, checkAt, checks, testStatusCode])
  exact ⟨h.2.1, h.2.2⟩

/-- C2: the Status Code check succeeds exactly when the response status is
200; for any other status it raises an assertion whose message contains
the text Expected status code 200 and the actual status value. -/
theorem c2_status_code (r : Response) :
    ((testStatusCode (Except.ok r)).err = none ↔ r.status = 200)
    ∧ (r.status ≠ 200 →
        (testStatusCode (Except.ok r)).err =
          some (JsError.assertion (statusMsg r.status))
        ∧ strContainsB (statusMsg r.status) expectedStatusMarker = true
        ∧ strContainsB (statusMsg r.status) (toString r.status) = true) := by
  constructor
  · by_cases hs : r.status = 200 <;> simp [testStatusCode, hs]
  · intro hs
    refine ⟨by simp [testStatusCode, hs], ?_, ?_⟩
    · show strContainsB
        ("Expected status code 200, but got " ++ toString r.status ++ " ❌")
        expectedStatusMarker = true
      apply strContainsB_append_right
      apply strContainsB_append_right
      decide
    · show strContainsB
        ("Expected status code 200, but got " ++ toString r.status ++ " ❌")
        (toString r.status) = true
      apply strContainsB_append_right
      exact strContainsB_append_left _ _ _ (strContainsB_self _)

/-- C2 witness: a simulated 404 yields the documented message, which
contains both markers. -/
theorem c2_witness :
    (testStatusCode (Except.ok ⟨404, Json.null⟩)).err =
      some (JsError.assertion (statusMsg 404))
    ∧ strContainsB (statusMsg 404) expectedStatusMarker = true
    ∧ strContainsB (statusMsg 404) (toString 404) = true :=
  (c2_status_code ⟨404, Json.null⟩).2 (by decide)

/-- C8: the outcome of a run is a deterministic function of the responses
the network hands back: two environments agreeing on the first five
fetches produce identical runs (logs, fetch count and overall verdict),
so repeating the suite against the same mocked responses repeats the
outcome with no hidden state. -/
theorem c8_deterministic (env1 env2 : Nat → Except String Response)
    (h : ∀ n, n < 5 → env1 n = env2 n) :
    runTests env1 = runTests env2 := by
  have hc : runChecks checks env1 0 = runChecks checks env2 0 := by
    apply runChecks_congr
    intro i hi
    rw [Nat.zero_add]
    exact h i hi
  unfold runTests
  rw [hc]

/-- C8 witness: two environments that agree on the five fetched responses
but disagree beyond them give byte-identical runs. -/
theorem c8_witness :
    runTests (fun _ => Except.ok ⟨404, Json.null⟩) =
      runTests (fun n =>
        if n < 5 then Except.ok ⟨404, Json.null⟩
        else Except.error "network down") :=
  c8_deterministic _ _ (fun n hn => by simp [hn])

/-- C9: every run returns normally through the top-level catch: whatever
the environment does, runTests produces a result whose final console line
is either the overall success line or the overall failure line built from
the caught error, and no error escapes. -/
theorem c9_always_returns (env : Nat → Except String Response) :
    ((runTests env).failed = false
      ∧ (runTests env).logs.getLast? = some successLine)
    ∨ ∃ e : JsError, (runTests env).failed = true
        ∧ (runTests env).logs.getLast? = some (testsFailedLead ++ e.message)
    := by
  rcases hrc : (runChecks checks env 0).2.2 with _ | e
  · left
    rw [runTests_of_none env hrc]
    exact ⟨rfl, cons_append_getLast _ _ _⟩
  · right
    refine ⟨e, ?_, ?_⟩
    · rw [runTests_of_some env e hrc]
    · rw [runTests_of_some env e hrc]
      exact cons_append_getLast _ _ _

/-- C3 counterexample: the two distinct failure causes data-missing (an
empty body object) and data-not-an-array (a numeric data field) raise the
very same message, so the three causes do not carry three pairwise
distinct messages as claimed. -/
theorem c3_counterexample :
    (testDataStructure (Except.ok ⟨200, Json.obj []⟩)).err
      = some (JsError.assertion invalidDataMsg)
    ∧ (testDataStructure (Except.ok ⟨200,
        Json.obj [(dataKey, Json.num 5)]⟩)).err
      = some (JsError.assertion invalidDataMsg)
    ∧ (testDataStructure (Except.ok ⟨200,
        Json.obj [(dataKey, Json.arr [])]⟩)).err
      = some (JsError.assertion emptyDataMsg) :=
  ⟨rfl, rfl, rfl⟩

/-- C3 amended: the Data Shape check succeeds exactly when the body holds
a non-empty data array; for a non-null body, a missing data field and a
non-array data field share one message while the empty-array cause has
its own, so exactly two distinct assertion messages cover the three
causes; a null body instead throws the raw TypeError of the data.data
read, before any assertion is reached. -/
theorem c3_data_shape (r : Response) :
    ((testDataStructure (Except.ok r)).err = none ↔
      ∃ xs, getField r.body dataKey = some (Json.arr xs) ∧ xs ≠ [])
    ∧ (r.body ≠ Json.null →
        (∀ xs, getField r.body dataKey ≠ some (Json.arr xs)) →
        (testDataStructure (Except.ok r)).err =
          some (JsError.assertion invalidDataMsg))
    ∧ (getField r.body dataKey = some (Json.arr []) →
        (testDataStructure (Except.ok r)).err =
          some (JsError.assertion emptyDataMsg))
    ∧ (r.body = Json.null →
        (testDataStructure (Except.ok r)).err =
          some (JsError.typeError (nullReadMsg dataKey)))
    ∧ invalidDataMsg ≠ emptyDataMsg := by
  refine ⟨?_, ?_, ?_, ?_, by decide⟩
  · by_cases hb : r.body = Json.null
    · simp [testDataStructure, hb, readDataMember, getField]
    · have hrw := readDataMember_notnull r.body hb
      rcases hd : getField r.body dataKey with _ | d
      · simp only [testDataStructure, hrw, hd]
        simp
      · rcases d with _ | b | n | s | xs | fs
        · simp [testDataStructure, hrw, hd]
        · simp [testDataStructure, hrw, hd]
        · simp [testDataStructure, hrw, hd]
        · simp [testDataStructure, hrw, hd]
        · by_cases hx : xs.length > 0
          · simp only [testDataStructure, hrw, hd, if_pos hx]
            simp only [hd, Option.some.injEq]
            constructor
            · intro _
              exact ⟨xs, rfl, by
                intro hnil
                rw [hnil] at hx
                simp at hx⟩
            · intro _
              trivial
          · simp only [testDataStructure, hrw, hd, if_neg hx]
            simp only [hd, Option.some.injEq]
            constructor
            · intro hh
              exact absurd hh (by simp)
            · rintro ⟨ys, hys, hne⟩
              cases hys
              exact absurd (List.length_pos.mpr hne) hx
        · simp [testDataStructure, hrw, hd]
  · intro hb hnone
    have hrw := readDataMember_notnull r.body hb
    rcases hd : getField r.body dataKey with _ | d
    · simp [testDataStructure, hrw, hd]
    · rcases d with _ | b | n | s | xs | fs
      · simp [testDataStructure, hrw, hd]
      · simp [testDataStructure, hrw, hd]
      · simp [testDataStructure, hrw, hd]
      · simp [testDataStructure, hrw, hd]
      · exact absurd hd (hnone xs)
      · simp [testDataStructure, hrw, hd]
  · intro hd
    have hb : r.body ≠ Json.null :=
      getField_ne_null r.body dataKey (Json.arr []) hd
    have hrw := readDataMember_notnull r.body hb
    simp [testDataStructure, hrw, hd]
  · intro hb
    simp [testDataStructure, hb, readDataMember]

/-- C3 amended witness: a singleton data array passes the check. -/
theorem c3_witness :
    (testDataStructure (Except.ok ⟨200,
      Json.obj [(dataKey, Json.arr [Json.num 1])]⟩)).err = none :=
  (c3_data_shape ⟨200, Json.obj [(dataKey, Json.arr [Json.num 1])]⟩).1.mpr
    ⟨[Json.num 1], rfl, by simp⟩

/-- C6: when the body carries a data array, the Pagination check succeeds
exactly when the array has length 50; any other length n raises the
assertion stating the expected count 50 and the actual count n. -/
theorem c6_pagination (r : Response) (xs : List Json)
    (h : getField r.body dataKey = some (Json.arr xs)) :
    ((testPagination (Except.ok r)).err = none ↔ xs.length = 50)
    ∧ (xs.length ≠ 50 →
        (testPagination (Except.ok r)).err =
          some (JsError.assertion
            ("Expected 50 items per page, but got " ++ toString xs.length)))
    := by
  rw [testPagination_ok_notnull r (Json.arr xs) h (fun hh => Json.noConfusion hh)]
  by_cases hlen : xs.length = 50
  · have ht : strictEqNum (lengthMember (Json.arr xs)) defaultPageSize
        = true := by
      simp [strictEqNum, lengthMember, hlen, defaultPageSize]
    rw [if_pos ht]
    simp [hlen]
  · have hf : ¬strictEqNum (lengthMember (Json.arr xs)) defaultPageSize
        = true := by
      simp only [strictEqNum, lengthMember, defaultPageSize, beq_iff_eq]
      intro hh
      exact hlen (by exact_mod_cast hh)
    rw [if_neg hf]
    refine ⟨by simp [hlen], fun _ => ?_⟩
    have hdisp : display (lengthMember (Json.arr xs))
        = toString (Int.ofNat xs.length) := by
      simp [lengthMember, display, jsValToString]
    have hmsg : paginationGotMsg (lengthMember (Json.arr xs)) =
        "Expected 50 items per page, but got " ++ toString xs.length := by
      apply string_ext
      simp only [paginationGotMsg, hdisp, string_data_append]
      congr 1
    show some (JsError.assertion (paginationGotMsg (lengthMember (Json.arr xs))))
      = _
    rw [hmsg]

/-- C6 witness: a page of 10 items raises exactly the documented message,
and a page of 50 items passes. -/
theorem c6_witness :
    (testPagination (Except.ok ⟨200, Json.obj [(dataKey,
        Json.arr (List.replicate 10 Json.null))]⟩)).err =
      some (JsError.assertion "Expected 50 items per page, but got 10")
    ∧ (testPagination (Except.ok ⟨200, Json.obj [(dataKey,
        Json.arr (List.replicate 50 Json.null))]⟩)).err = none := by
  constructor
  · have h := (c6_pagination ⟨200, Json.obj [(dataKey,
        Json.arr (List.replicate 10 Json.null))]⟩
      (List.replicate 10 Json.null) rfl).2 (by simp)
    rw [h]
    decide
  · exact (c6_pagination ⟨200, Json.obj [(dataKey,
        Json.arr (List.replicate 50 Json.null))]⟩
      (List.replicate 50 Json.null) rfl).1.mpr (by simp)

/-- A Mickey Mouse character record. -/
def mickey : Json := Json.obj [(nameKey, Json.str mickeyName)]

/-- A body under which all five checks pass: status 200 and a 50-element
data array of named records. -/
def goodBody : Json := Json.obj [(dataKey, Json.arr (List.replicate 50 mickey))]

/-- C7: a failed run shows a FAILED line and a Tests failed! line and
never the overall success line, while a fully successful run shows the
overall success line and no line containing FAILED or Tests failed!; the
two indications are mutually exclusive for any single run. -/
theorem c7_console_verdict (env : Nat → Except String Response) :
    ((runTests env).failed = true →
      (∃ l ∈ (runTests env).logs, strContainsB l failedMarker = true)
      ∧ (∃ l ∈ (runTests env).logs, strContainsB l testsFailedMarker = true)
      ∧ successLine ∉ (runTests env).logs)
    ∧ ((runTests env).failed = false →
      successLine ∈ (runTests env).logs
      ∧ ∀ l ∈ (runTests env).logs,
          strContainsB l failedMarker = false
          ∧ strContainsB l testsFailedMarker = false) := by
  rcases hrc : (runChecks checks env 0).2.2 with _ | e
  · rw [runTests_of_none env hrc]
    rcases runChecks_success env hrc with ⟨hlogs, _⟩
    rw [hlogs]
    constructor
    · intro hft
      simp at hft
    · intro _
      refine ⟨by simp, ?_⟩
      intro l hl
      have hl2 : l ∈ banner :: (allPassLines ++ [successLine]) := hl
      simp only [allPassLines, List.mem_cons, List.mem_append,
        List.mem_singleton, List.not_mem_nil, or_false] at hl2
      rcases hl2 with rfl | (rfl | rfl | rfl | rfl | rfl | rfl) | rfl <;>
        exact ⟨by decide, by decide⟩
  · rw [runTests_of_some env e hrc]
    constructor
    · intro _
      refine ⟨?_, ?_, ?_⟩
      · rcases runChecks_failedLine checks (fun c hc => hc) env 0
          (by simp [hrc]) with ⟨l, hl, hcont⟩
        exact ⟨l, by simp [hl], hcont⟩
      · refine ⟨testsFailedLead ++ JsError.message e, by simp, ?_⟩
        exact strContainsB_append_right _ _ _ (by decide)
      · intro hmem
        have hmem2 : successLine ∈
            banner :: ((runChecks checks env 0).1
              ++ [testsFailedLead ++ JsError.message e]) := hmem
        simp only [List.mem_cons, List.mem_append, List.mem_singleton,
          List.not_mem_nil, or_false] at hmem2
        rcases hmem2 with h | h | h
        · exact absurd h (by decide)
        · have := runChecks_lines checks (fun c hc => hc) env 0
            successLine h
          exact absurd this (by decide)
        · exact ne_of_startsWith testsFailedLead
            (testsFailedLead ++ JsError.message e) successLine
            (startsWith_of_lead _ _ _ (listStartsWith_self _))
            (by decide) h.symm
    · intro hff
      simp at hff

/-- C7 witness: with an all-passing environment, the success line is
printed. -/
theorem c7_witness :
    successLine ∈ (runTests (fun _ => Except.ok ⟨200, goodBody⟩)).logs :=
  ((c7_console_verdict (fun _ => Except.ok ⟨200, goodBody⟩)).2 rfl).1

end DisneyApi
